import Mathlib

/-!
Shallow embedding of the order-placement service of this repository
(`services/order_service.py` together with `schemas/order_schema.py`).

Modelling conventions:
* Python `float` money values are modelled as exact rationals (`ℚ`).
* Python `int` is modelled as `Int` (both are unbounded).
* Nullable columns and `Optional` schema fields are `Option _`.
* The SQLAlchemy session/database is modelled as an explicit `Store` value:
  `commit` produces the next `Store`, `rollback` restores the one from before
  the transaction, `flush` on a freshly added row assigns the next primary key.
* Python exceptions are modelled with `Except Err`; `InstanceNotFoundError`
  and the stock `ValueError` become structured constructors carrying the data
  that appears in the exception message.
-/

namespace Shop

/-- Exceptions of the service.  `clientNotFound`, `productNotFound`,
`billNotFound` and `orderNotFound` model `InstanceNotFoundError`;
`insufficientStock` models the `ValueError` raised by the stock checks
(carrying the product id, the `product.stock` value printed in the message
and the requested quantity); `keyError` and `typeError` model the
corresponding Python runtime errors; `storageError` stands for an
unexpected storage-layer exception surfacing at commit. -/
inductive Err where
  | clientNotFound (clientId : Option Int)
  | productNotFound (productId : Int)
  | insufficientStock (productId : Int) (available : Option Int) (requested : Int)
  | billNotFound (billId : Int)
  | orderNotFound (orderId : Int)
  | keyError (key : Int)
  | typeError
  | storageError
  deriving DecidableEq, Repr

/-- `models/product.py` row: primary key, nullable price, nullable stock. -/
structure Product where
  id : Int
  price : Option ℚ
  stock : Option Int
  deriving DecidableEq, Repr

/-- `models/bill.py` row, the fields touched by the order service. -/
structure Bill where
  id : Int
  bill_number : Option String
  discount : ℚ
  total : ℚ
  payment_type : String
  client_id : Option Int
  deriving DecidableEq, Repr

/-- `models/order.py` row, the fields set by `OrderService.save`. -/
structure Order where
  id_key : Int
  total : ℚ
  delivery_method : String
  status : String
  client_id : Option Int
  bill_id : Option Int
  deriving DecidableEq, Repr

/-- `models/order_detail.py` row. -/
structure OrderDetail where
  order_id : Int
  product_id : Int
  quantity : Int
  price : Option ℚ
  deriving DecidableEq, Repr

/-- `schemas/order_schema.py`: `OrderItemInput(product_id, quantity)`. -/
structure OrderItemInput where
  product_id : Int
  quantity : Int
  deriving DecidableEq, Repr

/-- `schemas/order_schema.py`: `OrderSchema` (the `date` field is omitted:
it is time-dependent and no claim mentions it). -/
structure OrderSchema where
  total : ℚ
  delivery_method : String
  status : String
  client_id : Option Int
  bill_id : Option Int
  items : Option (List OrderItemInput)
  discount_pct : Option ℚ
  deriving DecidableEq, Repr

/-- The declarative pydantic constraints of `OrderSchema` that the upstream
validation layer enforces: `total >= 0`, item `quantity > 0`,
`discount_pct` in `[0, 100]`. -/
def OrderSchema.valid (s : OrderSchema) : Prop :=
  0 ≤ s.total ∧ (∀ it ∈ s.items.getD [], 0 < it.quantity) ∧
    (∀ d, s.discount_pct = some d → 0 ≤ d ∧ d ≤ 100)

/-- The database as seen through the session: client primary keys plus the
product, bill, order and order-detail tables. -/
structure Store where
  clients : List Int
  products : List Product
  bills : List Bill
  orders : List Order
  details : List OrderDetail
  deriving DecidableEq, Repr

/-- `session.get(ProductModel, pid)`: primary-key lookup. -/
def findProduct (store : Store) (pid : Int) : Option Product :=
  store.products.find? (fun p => p.id == pid)

/-- `session.get(BillModel, bid)`: primary-key lookup. -/
def findBill (store : Store) (bid : Int) : Option Bill :=
  store.bills.find? (fun b => b.id == bid)

/-- Order lookup by primary key. -/
def findOrder (store : Store) (oid : Int) : Option Order :=
  store.orders.find? (fun o => o.id_key == oid)

/-- Modelled from the spec (§4.1 Reference Validators): the
`ClientRepository.find` / `BillRepository.find` contract — repositories are
not under `src/`.  `find(id)` succeeds iff the primary key exists;
`find(None)` finds nothing. -/
def clientExists (store : Store) (cid : Option Int) : Bool :=
  match cid with
  | none => false
  | some c => store.clients.contains c

/-- Python `x or default` on a numeric optional: `None` and `0` are falsy. -/
def pyOrQ (x : Option ℚ) (default : ℚ) : ℚ :=
  match x with
  | none => default
  | some v => if v = 0 then default else v

/- ### Decimal printing and parsing (`str(n)` and `int(s)`) -/

/-- One decimal digit as a character. -/
def digitChar (d : Nat) : Char :=
  match d with
  | 0 => '0' | 1 => '1' | 2 => '2' | 3 => '3' | 4 => '4'
  | 5 => '5' | 6 => '6' | 7 => '7' | 8 => '8' | _ => '9'

/-- Accumulated value of a digit string. -/
def parseDigitsVal (cs : List Char) : Nat :=
  cs.foldl (fun n c => 10 * n + (c.toNat - 48)) 0

/-- Parse a non-empty all-digit character list. -/
def parseDigits (cs : List Char) : Option Nat :=
  if cs = [] then none
  else if cs.all (fun c => c.isDigit) then some (parseDigitsVal cs) else none

/-- Python `int(s)` on a string, restricted to an optional sign followed by
decimal digits (whitespace/underscore tolerance of CPython is not modelled;
no claim depends on it). `none` models the `ValueError` that the allocator
catches and skips. -/
def pyInt (s : String) : Option Int :=
  match s.data with
  | [] => none
  | c :: rest =>
    if c = '-' then (parseDigits rest).map (fun n => -(n : Int))
    else if c = '+' then (parseDigits rest).map (fun n => (n : Int))
    else (parseDigits (c :: rest)).map (fun n => (n : Int))

/-- Digits of `n`, most significant first, with fuel for structural
recursion (`fuel > n` suffices). -/
def natDigitsAux : Nat → Nat → List Char
  | _, 0 => []
  | n, fuel + 1 =>
    if n < 10 then [digitChar n]
    else natDigitsAux (n / 10) fuel ++ [digitChar (n % 10)]

/-- Decimal digit characters of a natural number. -/
def natStrChars (n : Nat) : List Char := natDigitsAux n (n + 1)

/-- Python `str(i)` for an integer. -/
def intStr (i : Int) : String :=
  if i < 0 then String.mk ('-' :: natStrChars i.natAbs)
  else String.mk (natStrChars i.toNat)

/- ### The sequence allocator (`OrderService._generate_next_order_number`) -/

/-- `int(bn)` on a `bill_number` cell: `None` raises `TypeError`, a
non-numeric string raises `ValueError`; both are caught and skipped by the
allocator's inner handler, modelled as `none`. -/
def pyIntOfCell (bn : Option String) : Option Int :=
  match bn with
  | none => none
  | some s => pyInt s

/-- The allocator's scan over all `bill_number` cells (lines 55-62):
parseable numbers raise the running maximum, the rest are skipped. -/
def scanBills (maxVal : Int) : List (Option String) → Int
  | [] => maxVal
  | bn :: rest =>
    match pyIntOfCell bn with
    | some num => scanBills (if maxVal < num then num else maxVal) rest
    | none => scanBills maxVal rest

/-- `SELECT max(id_key) FROM orders` (the `order_by desc limit 1 scalar`
query of lines 46-51): `none` when the table is empty. -/
def maxOrderId : List Order → Option Int
  | [] => none
  | o :: rest =>
    match maxOrderId rest with
    | none => some o.id_key
    | some m => some (if m < o.id_key then o.id_key else m)

/-- `OrderService._generate_next_order_number` (lines 37-65).  The two
queries are passed as already-run lookups so that their failure
(`Except.error`) can be modelled: an exception from the first query skips
straight to the handler with `max_val` still `999`; an exception from the
second query skips there with `max_val` already raised by the first.
Either way the handler only logs and the function returns `max_val + 1`.
The Python truthiness test `if max_order and max_order > max_val` skips a
`None` or `0` scalar. -/
def generateNextOrderNumber (orderQuery : Except Unit (Option Int))
    (billsQuery : Except Unit (List (Option String))) : Int :=
  match orderQuery with
  | .error _ => 999 + 1
  | .ok maxOrder =>
    let maxVal : Int :=
      match maxOrder with
      | none => 999
      | some m => if m ≠ 0 ∧ 999 < m then m else 999
    match billsQuery with
    | .error _ => maxVal + 1
    | .ok rows => scanBills maxVal rows + 1

/-- The allocator as `save` calls it: both lookups read the store and
succeed. -/
def allocate (store : Store) : Int :=
  generateNextOrderNumber (.ok (maxOrderId store.orders))
    (.ok (store.bills.map (fun b => b.bill_number)))

/- ### The save workflow (`OrderService.save`, lines 67-181) -/

/-- The in-session `product_cache` dict (line 84).  `session.get` returns
the identity-mapped handle, so repeated lines for one product share one
entry; the dict maps a product id to the current in-memory state of that
handle. -/
abbrev Cache : Type := Int → Option Product

/-- `product_cache[item.product_id] = product` (dict assignment). -/
def cacheInsert (cache : Cache) (pid : Int) (p : Product) : Cache :=
  fun k => if k = pid then some p else cache k

/-- The empty `product_cache = {}`. -/
def cacheEmpty : Cache := fun _ => none

/-- The pre-check loop (lines 85-96): fetch each item's product, raise
`InstanceNotFoundError` when absent, raise the stock `ValueError` when
`stock is None or stock < quantity`, cache the handle and accumulate
`(price or 0) * quantity` into the subtotal. -/
def precheckLoop (store : Store) (cache : Cache) (subtotal : ℚ) :
    List OrderItemInput → Except Err (Cache × ℚ)
  | [] => .ok (cache, subtotal)
  | item :: rest =>
    match findProduct store item.product_id with
    | none => .error (.productNotFound item.product_id)
    | some product =>
      match product.stock with
      | none => .error (.insufficientStock product.id none item.quantity)
      | some s =>
        if s < item.quantity then
          .error (.insufficientStock product.id (some s) item.quantity)
        else
          precheckLoop store (cacheInsert cache item.product_id product)
            (subtotal + pyOrQ product.price 0 * (item.quantity : ℚ))
            rest

/-- The stock-decrement loop (lines 110-118): take the cached handle
(`KeyError` if absent, unreachable after a successful pre-check over the
same items), mutate `product.stock -= quantity` (`TypeError` on a `None`
stock, likewise unreachable), then re-check non-negativity; the `ValueError`
message prints the already-decremented stock. -/
def decrementLoop (cache : Cache) :
    List OrderItemInput → Except Err Cache
  | [] => .ok cache
  | item :: rest =>
    match cache item.product_id with
    | none => .error (.keyError item.product_id)
    | some product =>
      match product.stock with
      | none => .error .typeError
      | some s =>
        let s2 := s - item.quantity
        if s2 < 0 then .error (.insufficientStock product.id (some s2) item.quantity)
        else
          decrementLoop (cacheInsert cache item.product_id { product with stock := some s2 }) rest

/-- The order-detail loop (lines 160-168): one row per item, with the
cached handle's raw `price` field snapshotted. -/
def detailsLoop (cache : Cache) (orderId : Int) :
    List OrderItemInput → Except Err (List OrderDetail)
  | [] => .ok []
  | item :: rest =>
    match cache item.product_id with
    | none => .error (.keyError item.product_id)
    | some product =>
      (detailsLoop cache orderId rest).map
        (fun ds => { order_id := orderId, product_id := item.product_id,
                     quantity := item.quantity, price := product.price } :: ds)

/-- Modelled from the spec (§6): `flush` on a freshly added row assigns the
next generated primary key — the database's id generation is a collaborator
interface, not code under `src/`.  Modelled as one more than the largest
existing bill id (at least 1). -/
def freshBillId (bills : List Bill) : Int :=
  (bills.foldl (fun m b => if m < b.id then b.id else m) 0) + 1

/-- Commit of the session's dirty product handles: each table row whose
primary key has a cached (mutated) handle is replaced by it. -/
def applyCache (cache : Cache) (products : List Product) : List Product :=
  products.map (fun p => (cache p.id).getD p)

/-- The discount (line 100): `subtotal * discount_pct / 100 if
discount_pct > 0 else 0`, with `discount_pct = schema.discount_pct or 0`
(line 99). -/
def discountAmountOf (schema : OrderSchema) (subtotal : ℚ) : ℚ :=
  if 0 < pyOrQ schema.discount_pct 0 then subtotal * pyOrQ schema.discount_pct 0 / 100 else 0

/-- The total (line 101): `max(subtotal - discount_amount, 0)`. -/
def totalOf (schema : OrderSchema) (subtotal : ℚ) : ℚ :=
  max (subtotal - discountAmountOf schema subtotal) 0

/-- The fresh bill built on lines 134-141 when no bill id was supplied. -/
def freshBillOf (store : Store) (schema : OrderSchema)
    (discountAmount total : ℚ) (nextNumber : Int) : Bill :=
  { id := freshBillId store.bills,
    bill_number := some (intStr nextNumber),
    discount := discountAmount,
    total := total,
    payment_type := "CASH",
    client_id := schema.client_id }

/-- Lines 132-153: create a fresh bill (no bill id supplied), or fetch the
supplied bill (`InstanceNotFoundError` when absent) and overwrite its
`bill_number` with the shared counter.  Returns the new bill table and the
bill id that `schema.bill_id` holds afterwards. -/
def billStep (store : Store) (schema : OrderSchema)
    (discountAmount total : ℚ) (nextNumber : Int) :
    Except Err (List Bill × Option Int) :=
  match schema.bill_id with
  | none =>
    .ok (store.bills ++ [freshBillOf store schema discountAmount total nextNumber],
         some (freshBillOf store schema discountAmount total nextNumber).id)
  | some bid =>
    match findBill store bid with
    | none => .error (.billNotFound bid)
    | some _ =>
      .ok (store.bills.map
            (fun b => if b.id = bid then { b with bill_number := some (intStr nextNumber) } else b),
           some bid)

/-- The order row inserted on lines 121-130 and linked to its bill on
line 156. -/
def newOrderOf (schema : OrderSchema) (total : ℚ) (nextNumber : Int)
    (billId : Option Int) : Order :=
  { id_key := nextNumber,
    total := total,
    delivery_method := schema.delivery_method,
    status := schema.status,
    client_id := schema.client_id,
    bill_id := billId }

/-- The store produced by `commit` (line 170): dirty product handles
written back, the order row and its detail rows appended, the bill table
from `billStep`. -/
def commitStore (store : Store) (cache : Cache) (bills2 : List Bill)
    (order : Order) (newDetails : List OrderDetail) : Store :=
  { clients := store.clients,
    products := applyCache cache store.products,
    bills := bills2,
    orders := store.orders ++ [order],
    details := store.details ++ newDetails }

/-- The transaction body (the `try` block, lines 108-170): decrement stock,
insert the order with the pre-allocated `id_key`, run the bill step, link
the order to the bill, insert one detail row per item, then commit.
`fault` injects an unexpected storage-layer exception at commit.  On
success it returns the committed store and the order row; any error
propagates to the handler in `save`. -/
def tryBlock (fault : Bool) (store : Store) (schema : OrderSchema)
    (items : List OrderItemInput) (cache0 : Cache)
    (discountAmount total : ℚ) (nextNumber : Int) :
    Except Err (Store × Order) :=
  match decrementLoop cache0 items with
  | .error e => .error e
  | .ok cache =>
    match billStep store schema discountAmount total nextNumber with
    | .error e => .error e
    | .ok (bills2, billId) =>
      match detailsLoop cache nextNumber items with
      | .error e => .error e
      | .ok newDetails =>
        if fault then .error .storageError
        else
          .ok (commitStore store cache bills2 (newOrderOf schema total nextNumber billId) newDetails,
               newOrderOf schema total nextNumber billId)

/-- `OrderService.save` up to the point where an exception either escapes
directly (client / pre-check, lines 74-96, which perform no mutation) or is
re-raised by the `except` handler (lines 178-181). -/
def saveGo (fault : Bool) (store : Store) (schema : OrderSchema) :
    Except Err (Store × Order) :=
  if clientExists store schema.client_id then
    match precheckLoop store cacheEmpty 0 (schema.items.getD []) with
    | .error e => .error e
    | .ok (cache, subtotal) =>
      tryBlock fault store schema (schema.items.getD []) cache
        (discountAmountOf schema subtotal) (totalOf schema subtotal) (allocate store)
  else .error (.clientNotFound schema.client_id)

/-- `OrderService.save` (lines 67-181) at the store level: on success the
committed store and the created order; on any exception the handler rolls
the session back — the caller keeps the original store — and re-raises the
original error unmodified. -/
def save (fault : Bool) (store : Store) (schema : OrderSchema) :
    Store × Except Err Order :=
  match saveGo fault store schema with
  | .error e => (store, .error e)
  | .ok (store2, order) => (store2, .ok order)

/- ### The update path (`OrderService.update`, lines 195-226) -/

/-- Modelled from the spec (§4.5): `BaseServiceImpl.update` — generic
update semantics, a field-by-field overwrite of the order row, not under
`src/`.  The order is looked up by primary key (`InstanceNotFoundError`
when absent) and its mutable fields are overwritten from the schema; no
product, bill or detail row is touched. -/
def baseUpdate (store : Store) (idKey : Int) (schema : OrderSchema) :
    Store × Except Err Order :=
  match findOrder store idKey with
  | none => (store, .error (.orderNotFound idKey))
  | some old =>
    let updated : Order :=
      { id_key := old.id_key,
        total := schema.total,
        delivery_method := schema.delivery_method,
        status := schema.status,
        client_id := schema.client_id,
        bill_id := schema.bill_id }
    ({ store with
        orders := store.orders.map (fun o => if o.id_key = idKey then updated else o) },
     .ok updated)

/-- `OrderService.update` (lines 195-226): validate a supplied client id
and a supplied bill id (each `InstanceNotFoundError` when absent), then
delegate to the generic update. -/
def update (store : Store) (idKey : Int) (schema : OrderSchema) :
    Store × Except Err Order :=
  match schema.client_id with
  | some cid =>
    if store.clients.contains cid then
      match schema.bill_id with
      | some bid =>
        match findBill store bid with
        | none => (store, .error (.billNotFound bid))
        | some _ => baseUpdate store idKey schema
      | none => baseUpdate store idKey schema
    else (store, .error (.clientNotFound (some cid)))
  | none =>
    match schema.bill_id with
    | some bid =>
      match findBill store bid with
      | none => (store, .error (.billNotFound bid))
      | some _ => baseUpdate store idKey schema
    | none => baseUpdate store idKey schema

/- ### Derived quantities used to state the claims -/

/-- Total quantity requested for one product across all items. -/
def reqQty (items : List OrderItemInput) (pid : Int) : Int :=
  ((items.filter (fun it => it.product_id == pid)).map (fun it => it.quantity)).sum

/-- The subtotal as a sum over the item list against the store: an absent
product or an absent price contributes zero. -/
def subtotalSpec (store : Store) (items : List OrderItemInput) : ℚ :=
  (items.map (fun it =>
    match findProduct store it.product_id with
    | none => 0
    | some p => pyOrQ p.price 0 * (it.quantity : ℚ))).sum

/-! ### Lemmas about decimal printing and parsing -/

theorem digitChar_isDigit (d : Nat) (h : d < 10) : (digitChar d).isDigit = true := by
  interval_cases d <;> decide

theorem digitChar_toNat (d : Nat) (h : d < 10) : (digitChar d).toNat - 48 = d := by
  interval_cases d <;> decide

theorem parseDigits_eq_some (cs : List Char) (m : Nat) (h : parseDigits cs = some m) :
    cs ≠ [] ∧ cs.all (fun c => c.isDigit) = true ∧ parseDigitsVal cs = m := by
  unfold parseDigits at h
  split at h
  · exact absurd h (by simp)
  · split at h
    · exact ⟨by assumption, by assumption, by injection h⟩
    · exact absurd h (by simp)

theorem parseDigits_of_all (cs : List Char) (hne : cs ≠ [])
    (hall : cs.all (fun c => c.isDigit) = true) :
    parseDigits cs = some (parseDigitsVal cs) := by
  unfold parseDigits
  simp [hne, hall]

theorem parseDigits_append_digit (cs : List Char) (m d : Nat) (hd : d < 10)
    (h : parseDigits cs = some m) :
    parseDigits (cs ++ [digitChar d]) = some (10 * m + d) := by
  obtain ⟨hne, hall, hval⟩ := parseDigits_eq_some cs m h
  have hne2 : cs ++ [digitChar d] ≠ [] := by simp
  have hall2 : (cs ++ [digitChar d]).all (fun c => c.isDigit) = true := by
    simp only [List.all_append, hall, Bool.true_and, List.all_cons, List.all_nil,
      Bool.and_true]
    exact digitChar_isDigit d hd
  rw [parseDigits_of_all _ hne2 hall2]
  unfold parseDigitsVal
  rw [List.foldl_append]
  unfold parseDigitsVal at hval
  rw [hval]
  simp [digitChar_toNat d hd]

theorem parseDigits_natDigitsAux (fuel n : Nat) (h : n < fuel) :
    parseDigits (natDigitsAux n fuel) = some n := by
  induction fuel generalizing n with
  | zero => omega
  | succ fuel ih =>
    unfold natDigitsAux
    by_cases h10 : n < 10
    · simp only [h10, if_true]
      rw [parseDigits_of_all _ (by simp) (by simpa using digitChar_isDigit n h10)]
      unfold parseDigitsVal
      simp [List.foldl_cons, List.foldl_nil, digitChar_toNat n h10]
    · simp only [h10, if_false]
      have hlt : n / 10 < fuel := by
        have := Nat.div_lt_self (show 0 < n by omega) (show 1 < 10 by omega)
        omega
      have hrec := ih (n / 10) hlt
      have := parseDigits_append_digit (natDigitsAux (n / 10) fuel) (n / 10) (n % 10)
        (Nat.mod_lt n (by omega)) hrec
      rw [this]
      congr 1
      omega

theorem parseDigits_natStrChars (n : Nat) :
    parseDigits (natStrChars n) = some n :=
  parseDigits_natDigitsAux (n + 1) n (Nat.lt_succ_self n)

theorem natStrChars_head_digit (n : Nat) :
    ∃ c rest, natStrChars n = c :: rest ∧ c.isDigit = true := by
  obtain ⟨hne, hall, _⟩ := parseDigits_eq_some _ _ (parseDigits_natStrChars n)
  cases hcs : natStrChars n with
  | nil => exact absurd hcs hne
  | cons c rest =>
    refine ⟨c, rest, rfl, ?_⟩
    rw [hcs] at hall
    simp only [List.all_cons, Bool.and_eq_true] at hall
    exact hall.1

/-- C3's numeric identity: Python's `int` parses `str(i)` back to `i` for
the non-negative integers the allocator produces. -/
theorem pyInt_intStr (i : Int) (h : 0 ≤ i) : pyInt (intStr i) = some i := by
  unfold intStr
  rw [if_neg (by omega)]
  obtain ⟨c, rest, hcs, hdig⟩ := natStrChars_head_digit i.toNat
  have hdata : (String.mk (natStrChars i.toNat)).data = natStrChars i.toNat := rfl
  unfold pyInt
  rw [hdata, hcs]
  have hcm : c ≠ '-' := by
    intro hc; rw [hc] at hdig; exact absurd hdig (by decide)
  have hcp : c ≠ '+' := by
    intro hc; rw [hc] at hdig; exact absurd hdig (by decide)
  simp only [hcm, hcp, if_false]
  rw [← hcs, parseDigits_natStrChars]
  simp [Int.toNat_of_nonneg h]

/-! ### Lemmas about the sequence allocator -/

theorem scanBills_le (rows : List (Option String)) :
    ∀ maxVal : Int, maxVal ≤ scanBills maxVal rows := by
  induction rows with
  | nil => intro maxVal; simp [scanBills]
  | cons bn rest ih =>
    intro maxVal
    simp only [scanBills]
    cases hp : pyIntOfCell bn with
    | none => exact ih maxVal
    | some num =>
      by_cases hlt : maxVal < num
      · simpa [hlt] using le_trans (le_of_lt hlt) (ih num)
      · simpa [hlt] using ih maxVal

theorem scanBills_mem (rows : List (Option String)) :
    ∀ (maxVal : Int) (bn : Option String) (n : Int),
      bn ∈ rows → pyIntOfCell bn = some n → n ≤ scanBills maxVal rows := by
  induction rows with
  | nil => intro _ _ _ hmem; cases hmem
  | cons b rest ih =>
    intro maxVal bn n hmem hparse
    simp only [List.mem_cons] at hmem
    rcases hmem with rfl | hmem
    · simp only [scanBills, hparse]
      by_cases hlt : maxVal < n
      · simpa [hlt] using scanBills_le rest n
      · simp only [if_neg hlt]
        have := scanBills_le rest maxVal
        omega
    · simp only [scanBills]
      cases hp : pyIntOfCell b with
      | none => exact ih maxVal bn n hmem hparse
      | some num => exact ih _ bn n hmem hparse

theorem maxOrderId_le (orders : List Order) (o : Order) (ho : o ∈ orders) :
    ∃ m, maxOrderId orders = some m ∧ o.id_key ≤ m := by
  induction orders with
  | nil => cases ho
  | cons a rest ih =>
    simp only [List.mem_cons] at ho
    rcases ho with rfl | ho
    · cases hm : maxOrderId rest with
      | none => exact ⟨o.id_key, by simp [maxOrderId, hm], le_refl _⟩
      | some m =>
        refine ⟨if m < o.id_key then o.id_key else m, by simp [maxOrderId, hm], ?_⟩
        split <;> omega
    · obtain ⟨m, hm, hle⟩ := ih ho
      refine ⟨if m < a.id_key then a.id_key else m, by simp [maxOrderId, hm], ?_⟩
      split <;> omega

/-- The `max_val` the allocator holds after the truthiness-guarded order
maximum (line 52-53). -/
def maxValAfterOrders (maxOrder : Option Int) : Int :=
  match maxOrder with
  | none => 999
  | some m => if m ≠ 0 ∧ 999 < m then m else 999

theorem generateNextOrderNumber_ok_ok (maxOrder : Option Int)
    (rows : List (Option String)) :
    generateNextOrderNumber (.ok maxOrder) (.ok rows) =
      scanBills (maxValAfterOrders maxOrder) rows + 1 := by
  unfold generateNextOrderNumber maxValAfterOrders
  rfl

theorem maxValAfterOrders_ge (maxOrder : Option Int) :
    999 ≤ maxValAfterOrders maxOrder := by
  cases maxOrder with
  | none => simp only [maxValAfterOrders]; omega
  | some m => simp only [maxValAfterOrders]; split <;> omega

theorem maxValAfterOrders_ge_val (m : Int) :
    m ≤ maxValAfterOrders (some m) := by
  simp only [maxValAfterOrders]
  split <;> omega

theorem allocate_ge (store : Store) : 1000 ≤ allocate store := by
  unfold allocate
  rw [generateNextOrderNumber_ok_ok]
  have h1 := maxValAfterOrders_ge (maxOrderId store.orders)
  have h2 := scanBills_le (store.bills.map (fun b => b.bill_number))
    (maxValAfterOrders (maxOrderId store.orders))
  omega

theorem allocate_gt_order (store : Store) (o : Order) (ho : o ∈ store.orders) :
    o.id_key < allocate store := by
  unfold allocate
  rw [generateNextOrderNumber_ok_ok]
  obtain ⟨m, hm, hle⟩ := maxOrderId_le store.orders o ho
  rw [hm]
  have h1 := maxValAfterOrders_ge_val m
  have h2 := scanBills_le (store.bills.map (fun b => b.bill_number))
    (maxValAfterOrders (some m))
  omega

theorem allocate_empty (store : Store) (ho : store.orders = [])
    (hb : store.bills = []) : allocate store = 1000 := by
  unfold allocate
  rw [ho, hb, generateNextOrderNumber_ok_ok]
  simp [maxOrderId, scanBills, maxValAfterOrders]

theorem allocate_gt_bill (store : Store) (b : Bill) (hb : b ∈ store.bills)
    (n : Int) (hn : pyIntOfCell b.bill_number = some n) :
    n < allocate store := by
  unfold allocate
  rw [generateNextOrderNumber_ok_ok]
  have hmem : b.bill_number ∈ store.bills.map (fun b => b.bill_number) :=
    List.mem_map_of_mem _ hb
  have := scanBills_mem (store.bills.map (fun b => b.bill_number))
    (maxValAfterOrders (maxOrderId store.orders)) b.bill_number n hmem hn
  omega

/-! ### Lemmas about the requested quantities -/

theorem reqQty_nil (pid : Int) : reqQty [] pid = 0 := rfl

theorem reqQty_cons (it : OrderItemInput) (rest : List OrderItemInput) (pid : Int) :
    reqQty (it :: rest) pid =
      (if it.product_id = pid then it.quantity else 0) + reqQty rest pid := by
  unfold reqQty
  by_cases h : it.product_id = pid
  · simp [List.filter_cons, h]
  · simp [List.filter_cons, h]

theorem reqQty_not_mem (items : List OrderItemInput) (pid : Int)
    (h : items.any (fun it => it.product_id == pid) = false) :
    reqQty items pid = 0 := by
  induction items with
  | nil => rfl
  | cons it rest ih =>
    simp only [List.any_cons, Bool.or_eq_false_iff] at h
    rw [reqQty_cons, ih h.2, if_neg (by simpa using h.1)]
    simp

/-! ### Lemmas about the cache dict -/

theorem cacheInsert_self (cache : Cache) (pid : Int) (p : Product) :
    cacheInsert cache pid p pid = some p := by
  simp [cacheInsert]

theorem cacheInsert_ne (cache : Cache) (pid : Int) (p : Product) (q : Int)
    (h : q ≠ pid) : cacheInsert cache pid p q = cache q := by
  simp [cacheInsert, h]

/-! ### Lemmas about the pre-check loop -/

theorem findProduct_id (store : Store) (pid : Int) (p : Product)
    (h : findProduct store pid = some p) : p.id = pid := by
  have := List.find?_some h
  simpa using this

theorem precheckLoop_ok_items (store : Store) (items : List OrderItemInput) :
    ∀ (cache0 : Cache) (sub0 : ℚ) (cache : Cache) (subtotal : ℚ),
      precheckLoop store cache0 sub0 items = .ok (cache, subtotal) →
      ∀ it ∈ items, ∃ p s, findProduct store it.product_id = some p ∧
        p.stock = some s ∧ it.quantity ≤ s := by
  induction items with
  | nil => intro _ _ _ _ _ it hit; cases hit
  | cons item rest ih =>
    intro cache0 sub0 cache subtotal h it hit
    simp only [precheckLoop] at h
    split at h
    · exact Except.noConfusion h
    next product hfp =>
    split at h
    · exact Except.noConfusion h
    next s hst =>
    split at h
    · exact Except.noConfusion h
    next hlt =>
    rcases List.mem_cons.mp hit with rfl | hmem
    · exact ⟨product, s, hfp, hst, by omega⟩
    · exact ih _ _ _ _ h it hmem

theorem precheckLoop_cache (store : Store) (items : List OrderItemInput) :
    ∀ (cache0 : Cache) (sub0 : ℚ) (cache : Cache) (subtotal : ℚ),
      precheckLoop store cache0 sub0 items = .ok (cache, subtotal) →
      ∀ pid : Int,
        (items.any (fun it => it.product_id == pid) = true →
          cache pid = findProduct store pid) ∧
        (items.any (fun it => it.product_id == pid) = false →
          cache pid = cache0 pid) := by
  induction items with
  | nil =>
    intro cache0 sub0 cache subtotal h pid
    simp only [precheckLoop, Except.ok.injEq, Prod.mk.injEq] at h
    rw [← h.1]
    simp
  | cons item rest ih =>
    intro cache0 sub0 cache subtotal h pid
    simp only [precheckLoop] at h
    split at h
    · exact Except.noConfusion h
    next product hfp =>
    split at h
    · exact Except.noConfusion h
    next s hst =>
    split at h
    · exact Except.noConfusion h
    next hlt =>
    have ihh := ih _ _ _ _ h pid
    constructor
    · intro hany
      simp only [List.any_cons, Bool.or_eq_true] at hany
      by_cases hrest : rest.any (fun it => it.product_id == pid) = true
      · exact ihh.1 hrest
      · have hpid : item.product_id = pid := by
          rcases hany with h1 | h1
          · simpa using h1
          · exact absurd h1 hrest
        rw [ihh.2 (by simpa using hrest)]
        simp only [cacheInsert, if_pos hpid.symm]
        rw [← hpid, hfp]
    · intro hany
      simp only [List.any_cons, Bool.or_eq_false_iff] at hany
      rw [ihh.2 hany.2]
      simp only [cacheInsert]
      have hne : pid ≠ item.product_id := by
        intro hc
        subst hc
        simp at hany
      rw [if_neg hne]

theorem precheckLoop_subtotal (store : Store) (items : List OrderItemInput) :
    ∀ (cache0 : Cache) (sub0 : ℚ) (cache : Cache) (subtotal : ℚ),
      precheckLoop store cache0 sub0 items = .ok (cache, subtotal) →
      subtotal = sub0 + subtotalSpec store items := by
  induction items with
  | nil =>
    intro cache0 sub0 cache subtotal h
    simp only [precheckLoop, Except.ok.injEq, Prod.mk.injEq] at h
    rw [← h.2]
    simp [subtotalSpec]
  | cons item rest ih =>
    intro cache0 sub0 cache subtotal h
    simp only [precheckLoop] at h
    split at h
    · exact Except.noConfusion h
    next product hfp =>
    split at h
    · exact Except.noConfusion h
    next s hst =>
    split at h
    · exact Except.noConfusion h
    next hlt =>
    rw [ih _ _ _ _ h]
    simp only [subtotalSpec, List.map_cons, List.sum_cons, hfp]
    ring

theorem precheckLoop_error (store : Store) (items : List OrderItemInput) :
    ∀ (cache0 : Cache) (sub0 : ℚ) (e : Err),
      precheckLoop store cache0 sub0 items = .error e →
      (∃ it ∈ items, e = .productNotFound it.product_id ∧
        findProduct store it.product_id = none) ∨
      (∃ pid a r, e = .insufficientStock pid a r) := by
  induction items with
  | nil => intro _ _ _ h; exact Except.noConfusion h
  | cons item rest ih =>
    intro cache0 sub0 e h
    simp only [precheckLoop] at h
    split at h
    next hfp =>
      left
      injection h with h
      exact ⟨item, List.mem_cons_self item rest, h.symm, hfp⟩
    next product hfp =>
    split at h
    next hst =>
      right
      injection h with h
      exact ⟨product.id, none, item.quantity, h.symm⟩
    next s hst =>
    split at h
    next hlt =>
      right
      injection h with h
      exact ⟨product.id, some s, item.quantity, h.symm⟩
    next hlt =>
    rcases ih _ _ _ h with ⟨it, hmem, he, hfp2⟩ | hins
    · exact Or.inl ⟨it, List.mem_cons_of_mem item hmem, he, hfp2⟩
    · exact Or.inr hins

/-! ### Lemmas about the stock-decrement loop -/

theorem decrementLoop_ok (items : List OrderItemInput) :
    ∀ (cache0 cache : Cache),
      decrementLoop cache0 items = .ok cache →
      ∀ pid : Int,
        (items.any (fun it => it.product_id == pid) = false → cache pid = cache0 pid) ∧
        (items.any (fun it => it.product_id == pid) = true →
          ∃ p s, cache0 pid = some p ∧ p.stock = some s ∧
            cache pid = some { p with stock := some (s - reqQty items pid) } ∧
            0 ≤ s - reqQty items pid) := by
  induction items with
  | nil =>
    intro cache0 cache h pid
    simp only [decrementLoop, Except.ok.injEq] at h
    rw [← h]
    simp
  | cons item rest ih =>
    intro cache0 cache h pid
    simp only [decrementLoop] at h
    split at h
    · exact Except.noConfusion h
    next product hc0 =>
    split at h
    · exact Except.noConfusion h
    next s hst =>
    split at h
    · exact Except.noConfusion h
    next hnn =>
    have ihh := ih _ _ h pid
    constructor
    · intro hany
      simp only [List.any_cons, Bool.or_eq_false_iff] at hany
      rw [ihh.1 hany.2]
      simp only [cacheInsert]
      have hne : pid ≠ item.product_id := by
        intro hc; subst hc; simp at hany
      rw [if_neg hne]
    · intro hany
      simp only [List.any_cons, Bool.or_eq_true] at hany
      by_cases hpid : item.product_id = pid
      · subst hpid
        by_cases hrest : rest.any (fun it => it.product_id == item.product_id) = true
        · obtain ⟨p2, s2, hcp2, hsp2, hcache, hge⟩ := ihh.2 hrest
          rw [cacheInsert_self] at hcp2
          injection hcp2 with hcp2
          subst hcp2
          have hs2 : s - item.quantity = s2 := by simpa using hsp2
          refine ⟨product, s, hc0, hst, ?_, ?_⟩
          · rw [hcache, reqQty_cons, if_pos rfl]
            simp only [Option.some.injEq, Product.mk.injEq, eq_self_iff_true, true_and]
            omega
          · rw [reqQty_cons, if_pos rfl]
            omega
        · have hr0 : reqQty rest item.product_id = 0 :=
            reqQty_not_mem rest item.product_id (by simpa using hrest)
          have hcache := ihh.1 (by simpa using hrest)
          rw [cacheInsert_self] at hcache
          refine ⟨product, s, hc0, hst, ?_, ?_⟩
          · rw [hcache, reqQty_cons, if_pos rfl, hr0]
            simp only [Option.some.injEq, Product.mk.injEq, eq_self_iff_true, true_and]
            omega
          · rw [reqQty_cons, if_pos rfl, hr0]
            omega
      · have hrest : rest.any (fun it => it.product_id == pid) = true := by
          rcases hany with h1 | h1
          · exact absurd (by simpa using h1) hpid
          · exact h1
        have hne : ¬ (pid = item.product_id) := fun hc => hpid hc.symm
        obtain ⟨p2, s2, hcp2, hsp2, hcache, hge⟩ := ihh.2 hrest
        simp only [cacheInsert, if_neg hne] at hcp2
        refine ⟨p2, s2, hcp2, hsp2, ?_, ?_⟩
        · rw [hcache, reqQty_cons, if_neg hpid]
          simp
        · rw [reqQty_cons, if_neg hpid]
          omega

theorem decrementLoop_error (items : List OrderItemInput) :
    ∀ (cache0 : Cache) (e : Err),
      (∀ it ∈ items, ∃ p s, cache0 it.product_id = some p ∧ p.stock = some s) →
      decrementLoop cache0 items = .error e →
      ∃ pid a r, e = .insufficientStock pid a r := by
  induction items with
  | nil => intro _ _ _ h; exact Except.noConfusion h
  | cons item rest ih =>
    intro cache0 e hinv h
    obtain ⟨p, s, hcp, hsp⟩ := hinv item (List.mem_cons_self item rest)
    simp only [decrementLoop] at h
    split at h
    next hc0 => rw [hc0] at hcp; exact Option.noConfusion hcp
    next product hc0 =>
    rw [hc0] at hcp
    injection hcp with hcp
    subst hcp
    split at h
    next hst => rw [hst] at hsp; exact Option.noConfusion hsp
    next s2 hst =>
    split at h
    next hnn =>
      injection h with h
      exact ⟨product.id, some (s2 - item.quantity), item.quantity, h.symm⟩
    next hnn =>
    refine ih _ _ ?_ h
    intro it hit
    by_cases hp : it.product_id = item.product_id
    · rw [hp]
      simp only [cacheInsert, if_pos rfl]
      exact ⟨_, _, rfl, rfl⟩
    · simp only [cacheInsert, if_neg hp]
      exact hinv it (List.mem_cons_of_mem item hit)

/-! ### Lemmas about the detail loop and cache write-back -/

theorem detailsLoop_ok (items : List OrderItemInput) :
    ∀ (cache : Cache) (oid : Int) (ds : List OrderDetail),
      detailsLoop cache oid items = .ok ds →
      ∀ it ∈ items, ∃ p, cache it.product_id = some p ∧
        ({ order_id := oid, product_id := it.product_id,
           quantity := it.quantity, price := p.price } : OrderDetail) ∈ ds := by
  induction items with
  | nil => intro _ _ _ _ it hit; cases hit
  | cons item rest ih =>
    intro cache oid ds h it hit
    simp only [detailsLoop] at h
    split at h
    · exact Except.noConfusion h
    next product hcp =>
    cases hrec : detailsLoop cache oid rest with
    | error e2 => rw [hrec] at h; exact Except.noConfusion h
    | ok ds2 =>
      rw [hrec] at h
      simp only [Except.map, Except.ok.injEq] at h
      rcases List.mem_cons.mp hit with rfl | hmem
      · exact ⟨product, hcp, by rw [← h]; exact List.mem_cons_self _ _⟩
      · obtain ⟨p2, hp2, hmem2⟩ := ih _ _ _ hrec it hmem
        exact ⟨p2, hp2, by rw [← h]; exact List.mem_cons_of_mem _ hmem2⟩

theorem findProduct_applyCache (cache : Cache) (products : List Product)
    (wf : ∀ q p, cache q = some p → p.id = q) (pid : Int) :
    (applyCache cache products).find? (fun p => p.id == pid) =
      match products.find? (fun p => p.id == pid) with
      | none => none
      | some p => some ((cache p.id).getD p) := by
  induction products with
  | nil => simp [applyCache]
  | cons q rest ih =>
    have hid : ((cache q.id).getD q).id = q.id := by
      cases hc : cache q.id with
      | none => simp
      | some p => simp [wf q.id p hc]
    by_cases hq : q.id = pid
    · rw [show applyCache cache (q :: rest) = ((cache q.id).getD q) :: applyCache cache rest from rfl]
      rw [List.find?_cons_of_pos _ (by rw [hid, hq]; simp),
        List.find?_cons_of_pos _ (by rw [hq]; simp)]
    · rw [show applyCache cache (q :: rest) = ((cache q.id).getD q) :: applyCache cache rest from rfl]
      rw [List.find?_cons_of_neg _ (by rw [hid]; simp [hq]),
        List.find?_cons_of_neg _ (by simp [hq])]
      exact ih

theorem precheck_cache_wf (store : Store) (items : List OrderItemInput)
    (cache : Cache) (subtotal : ℚ)
    (h : precheckLoop store cacheEmpty 0 items = .ok (cache, subtotal)) :
    ∀ q p, cache q = some p → p.id = q := by
  intro q p hc
  have hq := precheckLoop_cache store items _ _ _ _ h q
  by_cases hany : items.any (fun it => it.product_id == q) = true
  · rw [hq.1 hany] at hc
    exact findProduct_id store q p hc
  · rw [hq.2 (by simpa using hany)] at hc
    exact Option.noConfusion hc

theorem decrement_cache_wf (items : List OrderItemInput) (cache0 cache : Cache)
    (h : decrementLoop cache0 items = .ok cache)
    (wf : ∀ q p, cache0 q = some p → p.id = q) :
    ∀ q p, cache q = some p → p.id = q := by
  intro q p hc
  have hq := decrementLoop_ok items _ _ h q
  by_cases hany : items.any (fun it => it.product_id == q) = true
  · obtain ⟨p2, s2, hcp2, _, hcache, _⟩ := hq.2 hany
    rw [hcache] at hc
    injection hc with hc
    rw [← hc]
    exact wf q p2 hcp2
  · rw [hq.1 (by simpa using hany)] at hc
    exact wf q p hc

/-! ### Inversion lemmas for the save workflow -/

theorem save_of_go_error (fault : Bool) (store : Store) (schema : OrderSchema)
    (e : Err) (h : saveGo fault store schema = .error e) :
    save fault store schema = (store, .error e) := by
  unfold save
  rw [h]

theorem save_error_state (fault : Bool) (store : Store) (schema : OrderSchema)
    (e : Err) (h : (save fault store schema).2 = .error e) :
    (save fault store schema).1 = store := by
  unfold save at h ⊢
  cases hgo : saveGo fault store schema with
  | error e2 => rfl
  | ok p =>
    rw [hgo] at h
    obtain ⟨st, o⟩ := p
    exact Except.noConfusion h

theorem saveGo_of_client_missing (fault : Bool) (store : Store)
    (schema : OrderSchema) (hc : clientExists store schema.client_id = false) :
    saveGo fault store schema = .error (.clientNotFound schema.client_id) := by
  unfold saveGo
  rw [hc]
  simp

theorem saveGo_of_precheck_error (fault : Bool) (store : Store)
    (schema : OrderSchema) (e : Err)
    (hc : clientExists store schema.client_id = true)
    (hp : precheckLoop store cacheEmpty 0 (schema.items.getD []) = .error e) :
    saveGo fault store schema = .error e := by
  unfold saveGo
  rw [hc, if_pos rfl, hp]

theorem saveGo_of_precheck_ok (fault : Bool) (store : Store)
    (schema : OrderSchema) (cache : Cache) (subtotal : ℚ)
    (hc : clientExists store schema.client_id = true)
    (hp : precheckLoop store cacheEmpty 0 (schema.items.getD []) = .ok (cache, subtotal)) :
    saveGo fault store schema =
      tryBlock fault store schema (schema.items.getD []) cache
        (discountAmountOf schema subtotal) (totalOf schema subtotal)
        (allocate store) := by
  unfold saveGo
  rw [hc, if_pos rfl, hp]

theorem tryBlock_of_dec_error (fault : Bool) (store : Store)
    (schema : OrderSchema) (items : List OrderItemInput) (cache0 : Cache)
    (discountAmount total : ℚ) (nextNumber : Int) (e : Err)
    (hd : decrementLoop cache0 items = .error e) :
    tryBlock fault store schema items cache0 discountAmount total nextNumber =
      .error e := by
  unfold tryBlock
  rw [hd]

theorem save_ok_spec (fault : Bool) (store : Store) (schema : OrderSchema)
    (store2 : Store) (order : Order)
    (h : save fault store schema = (store2, .ok order)) :
    clientExists store schema.client_id = true ∧
    fault = false ∧
    ∃ cache subtotal cache2 newDetails bills2,
      precheckLoop store cacheEmpty 0 (schema.items.getD []) = .ok (cache, subtotal) ∧
      decrementLoop cache (schema.items.getD []) = .ok cache2 ∧
      detailsLoop cache2 (allocate store) (schema.items.getD []) = .ok newDetails ∧
      billStep store schema (discountAmountOf schema subtotal)
        (totalOf schema subtotal) (allocate store) = .ok (bills2, order.bill_id) ∧
      order = newOrderOf schema (totalOf schema subtotal) (allocate store) order.bill_id ∧
      store2 = commitStore store cache2 bills2 order newDetails := by
  unfold save at h
  cases hgo : saveGo fault store schema with
  | error e =>
    rw [hgo] at h
    simp only [Prod.mk.injEq] at h
    exact absurd h.2 (by simp)
  | ok p =>
    rw [hgo] at h
    obtain ⟨st, o⟩ := p
    simp only [Prod.mk.injEq, Except.ok.injEq] at h
    obtain ⟨h1, h2⟩ := h
    subst h1
    subst h2
    unfold saveGo at hgo
    split at hgo
    case isFalse => exact Except.noConfusion hgo
    case isTrue hc =>
    split at hgo
    · exact Except.noConfusion hgo
    next cache subtotal hpre =>
    unfold tryBlock at hgo
    split at hgo
    · exact Except.noConfusion hgo
    next cache2 hdec =>
    split at hgo
    · exact Except.noConfusion hgo
    next bills2 billId hbill =>
    split at hgo
    · exact Except.noConfusion hgo
    next newDetails hdet =>
    split at hgo
    next hfault => exact Except.noConfusion hgo
    next hfault =>
    simp only [Except.ok.injEq, Prod.mk.injEq] at hgo
    obtain ⟨hst, hord⟩ := hgo
    refine ⟨hc, by simpa using hfault, cache, subtotal, cache2, newDetails, bills2,
      hpre, hdec, hdet, ?_, ?_, ?_⟩
    · rw [hbill, ← hord]
      rfl
    · rw [← hord]
      rfl
    · rw [← hst, ← hord]

theorem findBill_id (store : Store) (bid : Int) (b : Bill)
    (h : findBill store bid = some b) : b.id = bid := by
  have := List.find?_some h
  simpa using this

theorem findBill_mem (store : Store) (bid : Int) (b : Bill)
    (h : findBill store bid = some b) : b ∈ store.bills :=
  List.mem_of_find?_eq_some h

theorem billStep_ok_cases (store : Store) (schema : OrderSchema)
    (dAmt tot : ℚ) (next : Int) (bills2 : List Bill) (billId : Option Int)
    (h : billStep store schema dAmt tot next = .ok (bills2, billId)) :
    (schema.bill_id = none ∧ billId = some (freshBillId store.bills) ∧
      bills2 = store.bills ++ [freshBillOf store schema dAmt tot next]) ∨
    (∃ bid b0, schema.bill_id = some bid ∧ findBill store bid = some b0 ∧
      billId = some bid ∧
      bills2 = store.bills.map
        (fun b => if b.id = bid then { b with bill_number := some (intStr next) } else b)) := by
  unfold billStep at h
  split at h
  next hb =>
    left
    simp only [Except.ok.injEq, Prod.mk.injEq] at h
    exact ⟨hb, h.2.symm, h.1.symm⟩
  next bid hb =>
    split at h
    · exact Except.noConfusion h
    next b0 hfb =>
      right
      simp only [Except.ok.injEq, Prod.mk.injEq] at h
      exact ⟨bid, b0, hb, hfb, h.2.symm, h.1.symm⟩

theorem mem_any (items : List OrderItemInput) (it : OrderItemInput)
    (hit : it ∈ items) :
    items.any (fun i => i.product_id == it.product_id) = true := by
  simp only [List.any_eq_true]
  exact ⟨it, hit, by simp⟩

/-! ### The claims -/

/-- C1: For every placement request, if any exception is raised during the
save workflow (non-existent client, non-existent product, insufficient
stock, non-existent supplied bill, or an unexpected storage error), the
transaction is rolled back, the original error propagates to the caller
unmodified, and every product's stock is left unchanged (no partial
commit): whenever `save` reports an error, the caller's store is exactly
the original one, and the error is exactly the one raised inside the
workflow body. -/
theorem C1_rollback_and_propagation (fault : Bool) (store : Store)
    (schema : OrderSchema) :
    (∀ e : Err, (save fault store schema).2 = .error e →
      (save fault store schema).1 = store) ∧
    (∀ e : Err, saveGo fault store schema = .error e →
      save fault store schema = (store, .error e)) :=
  ⟨fun e h => save_error_state fault store schema e h,
   fun e h => save_of_go_error fault store schema e h⟩

/-- C5: When its lookups succeed, the sequence allocator returns an integer
strictly greater than every existing order id and strictly greater than
every existing bill number that parses as an integer, with a floor of 1000:
on an empty store the first allocated value is 1000, and a second
sequential placement receives an id strictly greater than the first's. -/
theorem C5_allocator_monotone (store : Store) :
    (∀ o ∈ store.orders, o.id_key < allocate store) ∧
    (∀ b ∈ store.bills, ∀ n : Int,
      pyIntOfCell b.bill_number = some n → n < allocate store) ∧
    1000 ≤ allocate store ∧
    (store.orders = [] → store.bills = [] → allocate store = 1000) ∧
    (∀ (fault : Bool) (schema : OrderSchema) (store2 : Store) (order : Order),
      save fault store schema = (store2, .ok order) →
      order.id_key < allocate store2) := by
  refine ⟨fun o ho => allocate_gt_order store o ho,
    fun b hb n hn => allocate_gt_bill store b hb n hn,
    allocate_ge store,
    allocate_empty store,
    ?_⟩
  intro fault schema store2 order h
  obtain ⟨hc, hfault, cache, subtotal, cache2, newDetails, bills2, hpre, hdec,
    hdet, hbill, hord, hstore⟩ := save_ok_spec fault store schema store2 order h
  have hmem : order ∈ store2.orders := by
    rw [hstore]
    simp [commitStore]
  exact allocate_gt_order store2 order hmem

/-- C7, counterexample: the claim says that on every underlying lookup
failure the allocator falls back to returning 1000; but when the order-id
query has already raised the running maximum to 5000 and only the
bill-number query fails, the allocator returns 5001. -/
theorem C7_counterexample :
    generateNextOrderNumber (.ok (some 5000)) (.error ()) = 5001 ∧
    generateNextOrderNumber (.ok (some 5000)) (.error ()) ≠ 1000 := by
  decide

/-- C7, amended: on an underlying lookup failure the allocator does not
throw; it returns one more than the maximum accumulated before the
failure — 1000 when the order-id lookup itself fails, or when it found no
id above 999 before the bill lookup failed; `max_order_id + 1` when the
order-id lookup succeeded with a value above 999 and only the bill lookup
fails — and in every case the result is at least 1000, so order placement
still proceeds. -/
theorem C7_allocator_no_throw :
    (∀ bq, generateNextOrderNumber (.error ()) bq = 1000) ∧
    (∀ mo, generateNextOrderNumber (.ok mo) (.error ()) =
      maxValAfterOrders mo + 1) ∧
    (∀ m : Int, m ≤ 999 → generateNextOrderNumber (.ok (some m)) (.error ()) = 1000) ∧
    (∀ oq bq, 1000 ≤ generateNextOrderNumber oq bq) := by
  refine ⟨fun bq => rfl, fun mo => rfl, ?_, ?_⟩
  · intro m hm
    show maxValAfterOrders (some m) + 1 = 1000
    simp only [maxValAfterOrders]
    split
    next hcond => omega
    next hcond => omega
  · intro oq bq
    cases oq with
    | error u => simp [generateNextOrderNumber]
    | ok mo =>
      cases bq with
      | error u =>
        have := maxValAfterOrders_ge mo
        show 1000 ≤ maxValAfterOrders mo + 1
        omega
      | ok rows =>
        rw [generateNextOrderNumber_ok_ok]
        have h1 := maxValAfterOrders_ge mo
        have h2 := scanBills_le rows (maxValAfterOrders mo)
        omega

/-- C2: For every successful placement, each product referenced by the item
list has its stock decreased by exactly the total quantity requested for
that product across all items, and its stock is not negative after the
placement (the placement aborts entirely if a decrement would make stock
negative). -/
theorem C2_stock_decrement (fault : Bool) (store : Store) (schema : OrderSchema)
    (store2 : Store) (order : Order)
    (h : save fault store schema = (store2, .ok order)) :
    ∀ it ∈ schema.items.getD [], ∃ p s,
      findProduct store it.product_id = some p ∧ p.stock = some s ∧
      findProduct store2 it.product_id =
        some { p with stock := some (s - reqQty (schema.items.getD []) it.product_id) } ∧
      0 ≤ s - reqQty (schema.items.getD []) it.product_id := by
  obtain ⟨hc, hfault, cache, subtotal, cache2, newDetails, bills2, hpre, hdec,
    hdet, hbill, hord, hstore⟩ := save_ok_spec fault store schema store2 order h
  intro it hit
  obtain ⟨p, s, hfp, hs, hq⟩ := precheckLoop_ok_items store _ _ _ _ _ hpre it hit
  have hany := mem_any (schema.items.getD []) it hit
  have hcache := (precheckLoop_cache store _ _ _ _ _ hpre it.product_id).1 hany
  rw [hfp] at hcache
  obtain ⟨p2, s2, hcp2, hsp2, hcache2, hge⟩ :=
    (decrementLoop_ok _ _ _ hdec it.product_id).2 hany
  rw [hcache] at hcp2
  injection hcp2 with hcp2
  subst hcp2
  rw [hs] at hsp2
  injection hsp2 with hsp2
  subst hsp2
  refine ⟨p, s, hfp, hs, ?_, hge⟩
  have wf2 : ∀ q p0, cache2 q = some p0 → p0.id = q :=
    decrement_cache_wf _ _ _ hdec (precheck_cache_wf store _ _ _ hpre)
  have hfind2 : findProduct store2 it.product_id =
      match findProduct store it.product_id with
      | none => none
      | some p0 => some ((cache2 p0.id).getD p0) := by
    rw [hstore]
    simp only [findProduct, commitStore]
    exact findProduct_applyCache cache2 store.products wf2 it.product_id
  rw [hfind2]
  simp only [hfp]
  have hpid : p.id = it.product_id := findProduct_id store _ _ hfp
  have hc2x : cache2 p.id =
      some { p with stock := some (s - reqQty (schema.items.getD []) it.product_id) } := by
    nth_rewrite 1 [hpid]
    exact hcache2
  rw [hc2x]
  rfl

/-- C3: For every successful placement, the created order's integer id and
the linked bill's `bill_number` (string-encoded) are numerically identical
at commit time, both when a fresh bill is created and when a supplied bill
is updated. -/
theorem C3_shared_number (fault : Bool) (store : Store) (schema : OrderSchema)
    (store2 : Store) (order : Order)
    (h : save fault store schema = (store2, .ok order)) :
    order ∈ store2.orders ∧
    order.id_key = allocate store ∧
    ∃ b ∈ store2.bills, order.bill_id = some b.id ∧
      b.bill_number = some (intStr order.id_key) ∧
      pyInt (intStr order.id_key) = some order.id_key ∧
      (∀ bid, schema.bill_id = some bid → b.id = bid) := by
  obtain ⟨hc, hfault, cache, subtotal, cache2, newDetails, bills2, hpre, hdec,
    hdet, hbill, hord, hstore⟩ := save_ok_spec fault store schema store2 order h
  have hmem : order ∈ store2.orders := by
    rw [hstore]
    simp [commitStore]
  have hid : order.id_key = allocate store := by
    rw [hord]
    rfl
  have hround : pyInt (intStr order.id_key) = some order.id_key := by
    refine pyInt_intStr order.id_key ?_
    rw [hid]
    have := allocate_ge store
    omega
  have hbills2 : store2.bills = bills2 := by
    rw [hstore]
    rfl
  rcases billStep_ok_cases store schema _ _ _ _ _ hbill with
    ⟨hbnone, hbid, hbills⟩ | ⟨bid, b0, hbsome, hfb, hbid, hbills⟩
  · refine ⟨hmem, hid, freshBillOf store schema (discountAmountOf schema subtotal)
      (totalOf schema subtotal) (allocate store), ?_, ?_, ?_, hround, ?_⟩
    · rw [hbills2, hbills]
      simp
    · rw [hbid]
      rfl
    · show some (intStr (allocate store)) = some (intStr order.id_key)
      rw [hid]
    · intro bid hbid2
      rw [hbnone] at hbid2
      exact Option.noConfusion hbid2
  · have hb0id : b0.id = bid := findBill_id store bid b0 hfb
    refine ⟨hmem, hid, { b0 with bill_number := some (intStr (allocate store)) },
      ?_, ?_, ?_, hround, ?_⟩
    · rw [hbills2, hbills]
      refine List.mem_map.mpr ⟨b0, findBill_mem store bid b0 hfb, ?_⟩
      rw [if_pos hb0id]
    · rw [hbid]
      show some bid = some b0.id
      rw [hb0id]
    · show some (intStr (allocate store)) = some (intStr order.id_key)
      rw [hid]
    · intro bid2 hbid2
      rw [hbsome] at hbid2
      injection hbid2 with hbid2
      rw [← hbid2]
      exact hb0id

/-- C4: For every item list and `discount_pct` in `[0, 100]`, the computed
subtotal is the sum over items of (product price, with an absent price
treated as zero) times quantity; `discount_amount` equals
`subtotal * discount_pct / 100` when `discount_pct > 0` and zero
otherwise; and the order's total equals `max(subtotal - discount_amount, 0)`,
hence `total >= 0`. -/
theorem C4_pricing (fault : Bool) (store : Store) (schema : OrderSchema)
    (store2 : Store) (order : Order)
    (hpct : ∀ d, schema.discount_pct = some d → 0 ≤ d ∧ d ≤ 100)
    (h : save fault store schema = (store2, .ok order)) :
    order.total =
      max (subtotalSpec store (schema.items.getD []) -
        discountAmountOf schema (subtotalSpec store (schema.items.getD []))) 0 ∧
    discountAmountOf schema (subtotalSpec store (schema.items.getD [])) =
      (if 0 < pyOrQ schema.discount_pct 0
        then subtotalSpec store (schema.items.getD []) * pyOrQ schema.discount_pct 0 / 100
        else 0) ∧
    0 ≤ order.total := by
  obtain ⟨hc, hfault, cache, subtotal, cache2, newDetails, bills2, hpre, hdec,
    hdet, hbill, hord, hstore⟩ := save_ok_spec fault store schema store2 order h
  have hsub : subtotal = subtotalSpec store (schema.items.getD []) := by
    have := precheckLoop_subtotal store _ _ _ _ _ hpre
    simpa using this
  have htot : order.total = totalOf schema subtotal := by
    rw [hord]
    rfl
  refine ⟨?_, rfl, ?_⟩
  · rw [htot, hsub]
    rfl
  · rw [htot]
    exact le_max_right _ _

/-- C6: For every item list that references the same product more than
once, quantities accumulate against the same cached product handle so
repeated lines compound the stock check: the placement fails with the
`InsufficientStock` validation error whenever the summed quantities for a
product exceed its available stock, even when each individual line's
quantity is within the original stock. -/
theorem C6_compound_stock_check (fault : Bool) (store : Store)
    (schema : OrderSchema)
    (hc : clientExists store schema.client_id = true)
    (hex : ∀ it ∈ schema.items.getD [], ∃ p s,
      findProduct store it.product_id = some p ∧ p.stock = some s)
    (hover : ∃ it ∈ schema.items.getD [], ∀ p s,
      findProduct store it.product_id = some p → p.stock = some s →
      s < reqQty (schema.items.getD []) it.product_id) :
    ∃ pid a r, (save fault store schema).2 = .error (.insufficientStock pid a r) := by
  cases hpre : precheckLoop store cacheEmpty 0 (schema.items.getD []) with
  | error e =>
    rcases precheckLoop_error store _ _ _ _ hpre with ⟨it, hit, he, hnone⟩ | ⟨pid, a, r, he⟩
    · obtain ⟨p, s, hfp, _⟩ := hex it hit
      rw [hfp] at hnone
      exact Option.noConfusion hnone
    · subst he
      rw [save_of_go_error _ _ _ _ (saveGo_of_precheck_error fault store schema _ hc hpre)]
      exact ⟨pid, a, r, rfl⟩
  | ok pr =>
    obtain ⟨cache, subtotal⟩ := pr
    cases hdec : decrementLoop cache (schema.items.getD []) with
    | ok cache2 =>
      exfalso
      obtain ⟨it, hit, hlt⟩ := hover
      obtain ⟨p, s, hfp, hs⟩ := hex it hit
      have hany := mem_any (schema.items.getD []) it hit
      have hcachep := (precheckLoop_cache store _ _ _ _ _ hpre it.product_id).1 hany
      rw [hfp] at hcachep
      obtain ⟨p2, s2, hcp2, hsp2, _, hge⟩ :=
        (decrementLoop_ok _ _ _ hdec it.product_id).2 hany
      rw [hcachep] at hcp2
      injection hcp2 with hcp2
      subst hcp2
      rw [hs] at hsp2
      injection hsp2 with hsp2
      subst hsp2
      exact absurd (hlt p s hfp hs) (by omega)
    | error e =>
      have hinv : ∀ it ∈ schema.items.getD [], ∃ p s,
          cache it.product_id = some p ∧ p.stock = some s := by
        intro it hit
        obtain ⟨p, s, hfp, hs⟩ := hex it hit
        have hcachep := (precheckLoop_cache store _ _ _ _ _ hpre it.product_id).1
          (mem_any (schema.items.getD []) it hit)
        rw [hfp] at hcachep
        exact ⟨p, s, hcachep, hs⟩
      obtain ⟨pid, a, r, he⟩ := decrementLoop_error _ _ _ hinv hdec
      subst he
      have hgo := saveGo_of_precheck_ok fault store schema cache subtotal hc hpre
      rw [tryBlock_of_dec_error fault store schema _ cache _ _ _ _ hdec] at hgo
      rw [save_of_go_error _ _ _ _ hgo]
      exact ⟨pid, a, r, rfl⟩

/-- C9: For every placement where an item's product exists but has an
absent (`None`) stock value, `save` treats the product as having
insufficient stock and fails with the `InsufficientStock` validation
error, rather than crashing on the comparison of stock against
quantity. -/
theorem C9_none_stock (fault : Bool) (store : Store) (schema : OrderSchema)
    (hc : clientExists store schema.client_id = true)
    (hex : ∀ it ∈ schema.items.getD [], ∃ p,
      findProduct store it.product_id = some p)
    (hnone : ∃ it ∈ schema.items.getD [], ∃ p,
      findProduct store it.product_id = some p ∧ p.stock = none) :
    ∃ pid a r, (save fault store schema).2 = .error (.insufficientStock pid a r) := by
  cases hpre : precheckLoop store cacheEmpty 0 (schema.items.getD []) with
  | ok pr =>
    exfalso
    obtain ⟨cache, subtotal⟩ := pr
    obtain ⟨it, hit, p, hfp, hs⟩ := hnone
    obtain ⟨p2, s2, hfp2, hs2, _⟩ := precheckLoop_ok_items store _ _ _ _ _ hpre it hit
    rw [hfp] at hfp2
    injection hfp2 with hfp2
    subst hfp2
    rw [hs] at hs2
    exact Option.noConfusion hs2
  | error e =>
    rcases precheckLoop_error store _ _ _ _ hpre with ⟨it, hit, he, hfnone⟩ | ⟨pid, a, r, he⟩
    · obtain ⟨p, hfp⟩ := hex it hit
      rw [hfp] at hfnone
      exact Option.noConfusion hfnone
    · subst he
      rw [save_of_go_error _ _ _ _ (saveGo_of_precheck_error fault store schema _ hc hpre)]
      exact ⟨pid, a, r, rfl⟩

/-- C10: For every placement where an item's product has an absent (`None`)
price, the pricing computation counts that item's price as zero in the
subtotal, but the created `OrderDetail` row stores the product's raw
`price` field (the absent value, not zero), so the persisted
`OrderDetail.price` can differ from the unit price used to compute the
total. -/
theorem C10_detail_raw_price (fault : Bool) (store : Store)
    (schema : OrderSchema) (store2 : Store) (order : Order)
    (h : save fault store schema = (store2, .ok order)) :
    ∀ it ∈ schema.items.getD [], ∀ p,
      findProduct store it.product_id = some p →
      ({ order_id := order.id_key, product_id := it.product_id,
         quantity := it.quantity, price := p.price } : OrderDetail) ∈ store2.details ∧
      (p.price = none →
        pyOrQ p.price 0 * (it.quantity : ℚ) = 0 ∧
        order.total = max (subtotalSpec store (schema.items.getD []) -
          discountAmountOf schema (subtotalSpec store (schema.items.getD []))) 0) := by
  obtain ⟨hc, hfault, cache, subtotal, cache2, newDetails, bills2, hpre, hdec,
    hdet, hbill, hord, hstore⟩ := save_ok_spec fault store schema store2 order h
  intro it hit p hfp
  have hany := mem_any (schema.items.getD []) it hit
  have hcache := (precheckLoop_cache store _ _ _ _ _ hpre it.product_id).1 hany
  rw [hfp] at hcache
  obtain ⟨p2, s2, hcp2, hsp2, hcache2, hge⟩ :=
    (decrementLoop_ok _ _ _ hdec it.product_id).2 hany
  rw [hcache] at hcp2
  injection hcp2 with hcp2
  subst hcp2
  obtain ⟨p3, hp3, hmem3⟩ := detailsLoop_ok _ _ _ _ hdet it hit
  rw [hcache2] at hp3
  injection hp3 with hp3
  constructor
  · have hprice : p3.price = p.price := by
      rw [← hp3]
    have hidkey : order.id_key = allocate store := by
      rw [hord]
      rfl
    have hx : ({ order_id := allocate store,
                 product_id := it.product_id,
                 quantity := it.quantity,
                 price := p3.price } : OrderDetail) ∈ newDetails := hmem3
    rw [hprice, ← hidkey] at hx
    rw [hstore]
    simp only [commitStore, List.mem_append]
    exact Or.inr hx
  · intro hpn
    refine ⟨by rw [hpn]; simp [pyOrQ], ?_⟩
    have hsub : subtotal = subtotalSpec store (schema.items.getD []) := by
      have := precheckLoop_subtotal store _ _ _ _ _ hpre
      simpa using this
    have htot : order.total = totalOf schema subtotal := by
      rw [hord]
      rfl
    rw [htot, hsub]
    rfl

/-- The update path accepts the supplied client id: absent, or present in
the client table. -/
def clientOkU (store : Store) (schema : OrderSchema) : Prop :=
  ∀ cid, schema.client_id = some cid → store.clients.contains cid = true

/-- The update path accepts the supplied bill id: absent, or present in the
bill table. -/
def billOkU (store : Store) (schema : OrderSchema) : Prop :=
  ∀ bid, schema.bill_id = some bid → (findBill store bid).isSome = true

theorem baseUpdate_frame (store : Store) (idKey : Int) (schema : OrderSchema) :
    (baseUpdate store idKey schema).1.products = store.products ∧
    (baseUpdate store idKey schema).1.bills = store.bills ∧
    (baseUpdate store idKey schema).1.details = store.details := by
  unfold baseUpdate
  cases h : findOrder store idKey with
  | none => exact ⟨rfl, rfl, rfl⟩
  | some old => exact ⟨rfl, rfl, rfl⟩

theorem update_state_cases (store : Store) (idKey : Int) (schema : OrderSchema) :
    (update store idKey schema).1 = store ∨
    update store idKey schema = baseUpdate store idKey schema := by
  cases hcl : schema.client_id with
  | none =>
    cases hbl : schema.bill_id with
    | none => exact Or.inr (by simp [update, hcl, hbl])
    | some bid =>
      cases hfb : findBill store bid with
      | none => exact Or.inl (by simp [update, hcl, hbl, hfb])
      | some b => exact Or.inr (by simp [update, hcl, hbl, hfb])
  | some cid =>
    by_cases hc : store.clients.contains cid = true
    · have hm : cid ∈ store.clients := by simpa using hc
      cases hbl : schema.bill_id with
      | none => exact Or.inr (by simp [update, hcl, hbl, hm])
      | some bid =>
        cases hfb : findBill store bid with
        | none => exact Or.inl (by simp [update, hcl, hbl, hm, hfb])
        | some b => exact Or.inr (by simp [update, hcl, hbl, hm, hfb])
    · have hm : cid ∉ store.clients := by simpa using hc
      exact Or.inl (by simp [update, hcl, hm])

/-- C8: For every call to `update(id, schema)`, no product's stock is
modified and no pricing (total/subtotal/discount) is recomputed; `update`
only validates that a supplied client id or bill id exists (failing with
`NotFound` otherwise) and then performs a field-by-field overwrite of the
order row. -/
theorem C8_update_frame (store : Store) (idKey : Int) (schema : OrderSchema) :
    (update store idKey schema).1.products = store.products ∧
    (update store idKey schema).1.bills = store.bills ∧
    (update store idKey schema).1.details = store.details ∧
    (∀ cid, schema.client_id = some cid → store.clients.contains cid = false →
      update store idKey schema = (store, .error (.clientNotFound (some cid)))) ∧
    (∀ bid, schema.bill_id = some bid → clientOkU store schema →
      findBill store bid = none →
      update store idKey schema = (store, .error (.billNotFound bid))) ∧
    (clientOkU store schema → billOkU store schema →
      update store idKey schema = baseUpdate store idKey schema) := by
  have hframe :
      (update store idKey schema).1.products = store.products ∧
      (update store idKey schema).1.bills = store.bills ∧
      (update store idKey schema).1.details = store.details := by
    rcases update_state_cases store idKey schema with hcase | hcase
    · rw [hcase]
      exact ⟨rfl, rfl, rfl⟩
    · rw [hcase]
      exact baseUpdate_frame store idKey schema
  refine ⟨hframe.1, hframe.2.1, hframe.2.2, ?_, ?_, ?_⟩
  · intro cid hcid hmiss
    have hm : cid ∉ store.clients := by simpa using hmiss
    simp [update, hcid, hm]
  · intro bid hbid hcok hmiss
    cases hcl : schema.client_id with
    | none => simp [update, hcl, hbid, hmiss]
    | some cid =>
      have hm : cid ∈ store.clients := by simpa using hcok cid hcl
      simp [update, hcl, hbid, hmiss, hm]
  · intro hcok hbok
    cases hcl : schema.client_id with
    | none =>
      cases hbl : schema.bill_id with
      | none => simp [update, hcl, hbl]
      | some bid =>
        obtain ⟨b, hfb⟩ := Option.isSome_iff_exists.mp (hbok bid hbl)
        simp [update, hcl, hbl, hfb]
    | some cid =>
      have hm : cid ∈ store.clients := by simpa using hcok cid hcl
      cases hbl : schema.bill_id with
      | none => simp [update, hcl, hbl, hm]
      | some bid =>
        obtain ⟨b, hfb⟩ := Option.isSome_iff_exists.mp (hbok bid hbl)
        simp [update, hcl, hbl, hfb, hm]

/-! ### Concrete witness scenarios

The first scenario is the one of spec §8: client 1 exists, product 1 has
stock 10 and price 5, one item of quantity 2 with a 10 per cent discount;
the expected outcome is subtotal 10, discount 1, total 9, stock 8, a fresh
bill numbered like the order, order id 1000. -/

def wProduct : Product := { id := 1, price := some 5, stock := some 10 }

def wStore : Store :=
  { clients := [1], products := [wProduct], bills := [], orders := [], details := [] }

def wSchema : OrderSchema :=
  { total := 0, delivery_method := "pickup", status := "PENDING", client_id := some 1,
    bill_id := none, items := some [{ product_id := 1, quantity := 2 }],
    discount_pct := some 10 }

def wOrder : Order :=
  { id_key := 1000, total := 9, delivery_method := "pickup", status := "PENDING",
    client_id := some 1, bill_id := some 1 }

def wBill : Bill :=
  { id := 1, bill_number := some "1000", discount := 1, total := 9,
    payment_type := "CASH", client_id := some 1 }

def wDetail : OrderDetail :=
  { order_id := 1000, product_id := 1, quantity := 2, price := some 5 }

def wStore2 : Store :=
  { clients := [1], products := [{ id := 1, price := some 5, stock := some 8 }],
    bills := [wBill], orders := [wOrder], details := [wDetail] }

theorem save_w_eval : save false wStore wSchema = (wStore2, .ok wOrder) := by
  have hstr : intStr 1000 = "1000" := by decide
  norm_num [save, saveGo, wStore, wSchema, wOrder, wBill, wDetail, wStore2, wProduct,
    clientExists, precheckLoop, findProduct, List.find?, pyOrQ, cacheEmpty, cacheInsert,
    tryBlock, decrementLoop, billStep, freshBillOf, freshBillId, findBill, detailsLoop,
    newOrderOf, commitStore, applyCache, Option.getD, allocate, generateNextOrderNumber,
    maxOrderId, scanBills, discountAmountOf, totalOf, Except.map, hstr]

theorem saveGo_w_eval : saveGo true wStore wSchema = .error .storageError := by
  norm_num [saveGo, wStore, wSchema, wProduct, clientExists, precheckLoop, findProduct,
    List.find?, pyOrQ, cacheEmpty, cacheInsert, tryBlock, decrementLoop, billStep,
    freshBillOf, freshBillId, findBill, detailsLoop, allocate, generateNextOrderNumber,
    maxOrderId, scanBills, discountAmountOf, totalOf, Except.map]

/-- Witness for C1 at a concrete input: with a storage fault at commit, the
caller gets the original store back together with the storage error. -/
theorem C1_witness : save true wStore wSchema = (wStore, .error .storageError) :=
  (C1_rollback_and_propagation true wStore wSchema).2 .storageError saveGo_w_eval

/-- Witness for C2 at a concrete input: product 1's stock drops from 10 to
10 - 2 and stays non-negative. -/
theorem C2_witness :
    ∃ p s, findProduct wStore 1 = some p ∧ p.stock = some s ∧
      findProduct wStore2 1 =
        some { p with stock := some (s - reqQty (wSchema.items.getD []) 1) } ∧
      0 ≤ s - reqQty (wSchema.items.getD []) 1 := by
  have h := C2_stock_decrement false wStore wSchema wStore2 wOrder save_w_eval
    { product_id := 1, quantity := 2 } (by decide)
  simpa using h

/-- Witness for C3 at a concrete input: the order id is 1000 and the fresh
bill is numbered `str(1000)`. -/
theorem C3_witness :
    wOrder ∈ wStore2.orders ∧ wOrder.id_key = allocate wStore ∧
    ∃ b ∈ wStore2.bills, wOrder.bill_id = some b.id ∧
      b.bill_number = some (intStr wOrder.id_key) ∧
      pyInt (intStr wOrder.id_key) = some wOrder.id_key ∧
      (∀ bid, wSchema.bill_id = some bid → b.id = bid) :=
  C3_shared_number false wStore wSchema wStore2 wOrder save_w_eval

/-- Witness for C4 at a concrete input: total 9 equals
`max(10 - 10 * 10 / 100, 0)` and is non-negative. -/
theorem C4_witness :
    wOrder.total =
      max (subtotalSpec wStore (wSchema.items.getD []) -
        discountAmountOf wSchema (subtotalSpec wStore (wSchema.items.getD []))) 0 ∧
    discountAmountOf wSchema (subtotalSpec wStore (wSchema.items.getD [])) =
      (if 0 < pyOrQ wSchema.discount_pct 0
        then subtotalSpec wStore (wSchema.items.getD []) * pyOrQ wSchema.discount_pct 0 / 100
        else 0) ∧
    0 ≤ wOrder.total :=
  C4_pricing false wStore wSchema wStore2 wOrder
    (by
      intro d hd
      simp only [wSchema] at hd
      injection hd with hd
      subst hd
      norm_num)
    save_w_eval

/-- Witness for C5 at a concrete input: the empty store allocates 1000, and
after the first placement the next allocation exceeds the first order's
id. -/
theorem C5_witness :
    allocate wStore = 1000 ∧ wOrder.id_key < allocate wStore2 :=
  ⟨(C5_allocator_monotone wStore).2.2.2.1 rfl rfl,
   (C5_allocator_monotone wStore).2.2.2.2 false wSchema wStore2 wOrder save_w_eval⟩

/-- C6 witness scenario: product 1 has stock 5; the item list asks for 3
twice, so each line passes the pre-check but the summed quantity 6 exceeds
the stock. -/
def w6Store : Store :=
  { clients := [1], products := [{ id := 1, price := some 5, stock := some 5 }],
    bills := [], orders := [], details := [] }

def w6Schema : OrderSchema :=
  { total := 0, delivery_method := "pickup", status := "PENDING", client_id := some 1,
    bill_id := none,
    items := some [{ product_id := 1, quantity := 3 }, { product_id := 1, quantity := 3 }],
    discount_pct := none }

/-- Witness for C6 at a concrete input. -/
theorem C6_witness :
    ∃ pid a r, (save false w6Store w6Schema).2 = .error (.insufficientStock pid a r) := by
  refine C6_compound_stock_check false w6Store w6Schema (by decide) ?_ ?_
  · intro it hit
    simp [w6Schema] at hit
    subst hit
    exact ⟨{ id := 1, price := some 5, stock := some 5 }, 5, by decide, rfl⟩
  · refine ⟨{ product_id := 1, quantity := 3 }, by decide, ?_⟩
    intro p s hp hs
    have h1 := hp.symm.trans
      (by decide : findProduct w6Store
        ({ product_id := 1, quantity := 3 } : OrderItemInput).product_id =
        some { id := 1, price := some 5, stock := some 5 })
    injection h1 with h1
    subst h1
    have h2 : some (5 : Int) = some s := hs
    injection h2 with h2
    subst h2
    decide

/-- Witness for C7 at concrete inputs: failing order lookup gives 1000; a
failing bill lookup after a small order maximum gives 1000; the result is
always at least 1000. -/
theorem C7_witness :
    generateNextOrderNumber (.error ()) (.ok []) = 1000 ∧
    generateNextOrderNumber (.ok (some 500)) (.error ()) = 1000 ∧
    1000 ≤ generateNextOrderNumber (.ok (some 5000)) (.error ()) :=
  ⟨C7_allocator_no_throw.1 (.ok []),
   C7_allocator_no_throw.2.2.1 500 (by decide),
   C7_allocator_no_throw.2.2.2 (.ok (some 5000)) (.error ())⟩

/-- Witness for C8 at a concrete input: an update whose client id exists
and whose bill id is absent leaves the product table alone and delegates to
the generic overwrite. -/
theorem C8_witness :
    (update wStore 5 wSchema).1.products = wStore.products ∧
    update wStore 5 wSchema = baseUpdate wStore 5 wSchema := by
  refine ⟨(C8_update_frame wStore 5 wSchema).1, ?_⟩
  refine (C8_update_frame wStore 5 wSchema).2.2.2.2.2 ?_ ?_
  · intro cid hcid
    simp only [wSchema] at hcid
    injection hcid with hcid
    subst hcid
    decide
  · intro bid hbid
    simp only [wSchema] at hbid
    exact Option.noConfusion hbid

/-- C9 witness scenario: product 1 exists but its stock column is NULL. -/
def w9Store : Store :=
  { clients := [1], products := [{ id := 1, price := some 5, stock := none }],
    bills := [], orders := [], details := [] }

def w9Schema : OrderSchema :=
  { total := 0, delivery_method := "pickup", status := "PENDING", client_id := some 1,
    bill_id := none, items := some [{ product_id := 1, quantity := 2 }],
    discount_pct := none }

/-- Witness for C9 at a concrete input. -/
theorem C9_witness :
    ∃ pid a r, (save false w9Store w9Schema).2 = .error (.insufficientStock pid a r) := by
  refine C9_none_stock false w9Store w9Schema (by decide) ?_ ?_
  · intro it hit
    simp [w9Schema] at hit
    subst hit
    exact ⟨{ id := 1, price := some 5, stock := none }, by decide⟩
  · exact ⟨{ product_id := 1, quantity := 2 }, by decide,
      { id := 1, price := some 5, stock := none }, by decide, rfl⟩

/-- C10 witness scenario: product 1 has a NULL price, so the subtotal
counts it as zero while the persisted detail row keeps the NULL. -/
def w10Store : Store :=
  { clients := [1], products := [{ id := 1, price := none, stock := some 10 }],
    bills := [], orders := [], details := [] }

def w10Schema : OrderSchema :=
  { total := 0, delivery_method := "pickup", status := "PENDING", client_id := some 1,
    bill_id := none, items := some [{ product_id := 1, quantity := 2 }],
    discount_pct := none }

def w10Order : Order :=
  { id_key := 1000, total := 0, delivery_method := "pickup", status := "PENDING",
    client_id := some 1, bill_id := some 1 }

def w10Bill : Bill :=
  { id := 1, bill_number := some "1000", discount := 0, total := 0,
    payment_type := "CASH", client_id := some 1 }

def w10Detail : OrderDetail :=
  { order_id := 1000, product_id := 1, quantity := 2, price := none }

def w10Store2 : Store :=
  { clients := [1], products := [{ id := 1, price := none, stock := some 8 }],
    bills := [w10Bill], orders := [w10Order], details := [w10Detail] }

theorem save_w10_eval : save false w10Store w10Schema = (w10Store2, .ok w10Order) := by
  have hstr : intStr 1000 = "1000" := by decide
  norm_num [save, saveGo, w10Store, w10Schema, w10Order, w10Bill, w10Detail, w10Store2,
    clientExists, precheckLoop, findProduct, List.find?, pyOrQ, cacheEmpty, cacheInsert,
    tryBlock, decrementLoop, billStep, freshBillOf, freshBillId, findBill, detailsLoop,
    newOrderOf, commitStore, applyCache, Option.getD, allocate, generateNextOrderNumber,
    maxOrderId, scanBills, discountAmountOf, totalOf, Except.map, hstr]

/-- Witness for C10 at a concrete input: the persisted detail row carries
the NULL price while the item contributed zero to the subtotal. -/
theorem C10_witness :
    ({ order_id := w10Order.id_key, product_id := 1, quantity := 2, price := none } :
       OrderDetail) ∈ w10Store2.details ∧
    pyOrQ none 0 * (2 : ℚ) = 0 := by
  have h := C10_detail_raw_price false w10Store w10Schema w10Store2 w10Order save_w10_eval
    { product_id := 1, quantity := 2 } (by decide)
    { id := 1, price := none, stock := some 10 } (by decide)
  exact ⟨by simpa using h.1, by simpa using (h.2 rfl).1⟩

end Shop
